import Mathlib

/-!
Verification of the Flux HTTP client (`src/http-client.ts`, `src/types.ts`).

The development shallowly embeds the request/response pipeline of the
`HttpClient` class: URL resolution (`_buildURL`), body serialization
(`_serializeData`, `_serializeFormData`, `_serializeMultipartData`),
response parsing (`_parseResponse`), the transport loop with timing
instrumentation and the response-size ceiling (`_makeRequest`), and the
orchestration and validation performed by `_request`.

JavaScript byte buffers (`Buffer`) are modelled as `List Char`; strings
convert to and from buffers via `String.data` / `String.mk`, which makes
`Buffer.concat`/`toString` round-trips definitional without modelling
UTF-8.  Machine-level details that the claims do not touch (actual
sockets, TLS) are abstracted into an `Exchange` trace consumed by the
transport model.
-/

namespace Flux

/-! ## Character-list string utilities (JS string primitives) -/

/-- JS `String.prototype.startsWith` on character lists. -/
def listStartsWith : List Char → List Char → Bool
  | _, [] => true
  | [], _ :: _ => false
  | a :: as, b :: bs => a = b && listStartsWith as bs

/-- JS `String.prototype.includes` (substring containment) on character lists. -/
def listContainsSub : List Char → List Char → Bool
  | [], pat => pat.isEmpty
  | c :: cs, pat => listStartsWith (c :: cs) pat || listContainsSub cs pat

/-- JS `String.prototype.endsWith` on character lists. -/
def listEndsWith (l pat : List Char) : Bool :=
  listStartsWith l.reverse pat.reverse

/-- Whitespace characters recognised by `String.prototype.trim` (the ASCII ones). -/
def isJsWs (c : Char) : Bool :=
  c = ' ' || c = '\t' || c = '\n' || c = '\r' || c = '\x0b' || c = '\x0c'

/-- JS `String.prototype.trim` on character lists. -/
def trimChars (l : List Char) : List Char :=
  ((l.dropWhile isJsWs).reverse.dropWhile isJsWs).reverse

/-- JS `a.includes(b)` on Lean strings. -/
def jsIncludes (s t : String) : Bool :=
  listContainsSub s.data t.data

/-! ## JSON values and JS data values -/

/-- Values produced by `JSON.parse`.  Numbers keep their source lexeme: no
claim compares numeric magnitudes, only structure. -/
inductive JSValue where
  | null
  | bool (b : Bool)
  | num (lexeme : String)
  | str (s : String)
  | arr (elems : List JSValue)
  | obj (fields : List (String × JSValue))
  deriving Repr

/-- JavaScript values a caller can pass as the request payload (`data : any`).
`circular` stands for a self-referencing object: `JSON.stringify` throws on
it, while `typeof` still reports `"object"`. -/
inductive JSData where
  | jnull
  | jsUndefined
  | str (s : String)
  | num (n : Int)
  | bool (b : Bool)
  | buffer (bytes : List Char)
  | arr (elems : List JSData)
  | obj (fields : List (String × JSData))
  | circular
  deriving Repr

/-- `typeof data === 'object'` (arrays, plain objects, Buffers, null and
circular structures all report `"object"`). -/
def JSData.typeofObject : JSData → Bool
  | .jnull | .buffer _ | .arr _ | .obj _ | .circular => true
  | _ => false

/-- `Buffer.isBuffer(data)`. -/
def JSData.isBuffer : JSData → Bool
  | .buffer _ => true
  | _ => false

mutual

/-- JS string coercion `String(value)` for payload values. -/
def jsToString : JSData → String
  | .jnull => "null"
  | .jsUndefined => "undefined"
  | .str s => s
  | .num n => toString n
  | .bool b => if b then "true" else "false"
  | .buffer b => String.mk b
  | .arr elems => String.intercalate "," (jsToStringList elems)
  | .obj _ => "[object Object]"
  | .circular => "[object Object]"

/-- `String(value)` applied across array elements (array `toString`). -/
def jsToStringList : List JSData → List String
  | [] => []
  | v :: vs => jsToString v :: jsToStringList vs

end

/-! ## JSON.stringify -/

/-- Hex digit (uppercase) for a value < 16. -/
def hexDigit (n : Nat) : Char :=
  if n < 10 then Char.ofNat ('0'.toNat + n)
  else Char.ofNat ('A'.toNat + (n - 10))

/-- JSON string escaping used by `JSON.stringify` for string values. -/
def jsonEscapeChar (c : Char) : List Char :=
  if c = '"' then ['\\', '"']
  else if c = '\\' then ['\\', '\\']
  else if c = '\n' then ['\\', 'n']
  else if c = '\r' then ['\\', 'r']
  else if c = '\t' then ['\\', 't']
  else if c.toNat < 32 then
    ['\\', 'u', '0', '0', hexDigit (c.toNat / 16), hexDigit (c.toNat % 16)]
  else [c]

/-- Quote a string the way `JSON.stringify` renders string values. -/
def jsonQuote (s : String) : String :=
  String.mk ('"' :: (s.data.flatMap jsonEscapeChar) ++ ['"'])

mutual

/-- `JSON.stringify(data)`: `none` models the `TypeError` thrown on a
circular structure.  A `Buffer` serializes to its `{"type":"Buffer",...}`
JSON form; `undefined` object-field values are dropped, `undefined` array
elements become `null` — as in JavaScript. -/
def jsonStringify : JSData → Option String
  | .jnull => some "null"
  | .jsUndefined => some "null"
  | .str s => some (jsonQuote s)
  | .num n => some (toString n)
  | .bool b => some (if b then "true" else "false")
  | .buffer bytes =>
      some ("\x7b\"type\":\"Buffer\",\"data\":[" ++
        String.intercalate "," (bytes.map (fun c => toString c.toNat)) ++ "]\x7d")
  | .arr elems => do
      let parts ← jsonStringifyList elems
      pure ("[" ++ String.intercalate "," parts ++ "]")
  | .obj fields => do
      let parts ← jsonStringifyFields fields
      pure ("\x7b" ++ String.intercalate "," parts ++ "\x7d")
  | .circular => none

/-- Serialize array elements; `undefined` elements render as `null`. -/
def jsonStringifyList : List JSData → Option (List String)
  | [] => some []
  | v :: vs => do
      let s ← match v with
        | .jsUndefined => some "null"
        | _ => jsonStringify v
      let rest ← jsonStringifyList vs
      pure (s :: rest)

/-- Serialize object fields; `undefined`-valued fields are dropped. -/
def jsonStringifyFields : List (String × JSData) → Option (List String)
  | [] => some []
  | (k, v) :: fs =>
      match v with
      | .jsUndefined => jsonStringifyFields fs
      | _ => do
          let s ← jsonStringify v
          let rest ← jsonStringifyFields fs
          pure ((jsonQuote k ++ ":" ++ s) :: rest)

end

/-! ## JSON.parse -/

/-- JSON whitespace. -/
def isJsonWs (c : Char) : Bool :=
  c = ' ' || c = '\t' || c = '\n' || c = '\r'

/-- Skip JSON whitespace. -/
def skipWs (cs : List Char) : List Char :=
  cs.dropWhile isJsonWs

/-- Hex digit value, if the character is one. -/
def hexVal (c : Char) : Option Nat :=
  if '0' ≤ c ∧ c ≤ '9' then some (c.toNat - '0'.toNat)
  else if 'a' ≤ c ∧ c ≤ 'f' then some (c.toNat - 'a'.toNat + 10)
  else if 'A' ≤ c ∧ c ≤ 'F' then some (c.toNat - 'A'.toNat + 10)
  else none

/-- Scan a JSON string literal body (after the opening quote), handling
escape sequences; returns the decoded characters and the remaining input. -/
def pStringAux : List Char → List Char → Option (List Char × List Char)
  | [], _ => none
  | '"' :: rest, acc => some (acc.reverse, rest)
  | '\\' :: esc, acc =>
      match esc with
      | '"' :: r => pStringAux r ('"' :: acc)
      | '\\' :: r => pStringAux r ('\\' :: acc)
      | '/' :: r => pStringAux r ('/' :: acc)
      | 'n' :: r => pStringAux r ('\n' :: acc)
      | 't' :: r => pStringAux r ('\t' :: acc)
      | 'r' :: r => pStringAux r ('\r' :: acc)
      | 'b' :: r => pStringAux r ('\x08' :: acc)
      | 'f' :: r => pStringAux r ('\x0c' :: acc)
      | 'u' :: a :: b :: c :: d :: r =>
          match hexVal a, hexVal b, hexVal c, hexVal d with
          | some ha, some hb, some hc, some hd =>
              let n := ((ha * 16 + hb) * 16 + hc) * 16 + hd
              if h : n.isValidChar then pStringAux r (Char.ofNatAux n h :: acc)
              else none
          | _, _, _, _ => none
      | _ => none
  | c :: rest, acc => pStringAux rest (c :: acc)

/-- Lex the digits of a JSON number starting at `cs` (after any leading
minus): integer part, optional fraction, optional exponent. -/
def pNumberTail (cs : List Char) : Option (List Char × List Char) :=
  let intPart := cs.takeWhile Char.isDigit
  let rest0 := cs.dropWhile Char.isDigit
  if intPart.isEmpty then none
  else
    let (fracPart, rest1) :=
      match rest0 with
      | '.' :: t =>
          let ds := t.takeWhile Char.isDigit
          (('.' :: ds), t.dropWhile Char.isDigit)
      | _ => ([], rest0)
    if fracPart = ['.'] then none
    else
      match rest1 with
      | e :: t =>
          if e = 'e' ∨ e = 'E' then
            let (sgn, t1) :=
              match t with
              | '+' :: t1 => (['+'], t1)
              | '-' :: t1 => (['-'], t1)
              | _ => ([], t)
            let ds := t1.takeWhile Char.isDigit
            if ds.isEmpty then none
            else some (intPart ++ fracPart ++ e :: sgn ++ ds, t1.dropWhile Char.isDigit)
          else some (intPart ++ fracPart, rest1)
      | [] => some (intPart ++ fracPart, rest1)

mutual

/-- Fuel-indexed recursive-descent parser for a JSON value; models
`JSON.parse` (returning `none` where `JSON.parse` would throw). -/
def pVal : Nat → List Char → Option (JSValue × List Char)
  | 0, _ => none
  | fuel + 1, cs =>
      match skipWs cs with
      | 'n' :: 'u' :: 'l' :: 'l' :: rest => some (.null, rest)
      | 't' :: 'r' :: 'u' :: 'e' :: rest => some (.bool true, rest)
      | 'f' :: 'a' :: 'l' :: 's' :: 'e' :: rest => some (.bool false, rest)
      | '"' :: rest =>
          match pStringAux rest [] with
          | some (s, r) => some (.str (String.mk s), r)
          | none => none
      | '[' :: rest =>
          (match skipWs rest with
          | ']' :: r => some (.arr [], r)
          | _ => pElems fuel rest [])
      | '{' :: rest =>
          (match skipWs rest with
          | '}' :: r => some (.obj [], r)
          | _ => pMembers fuel rest [])
      | '-' :: rest =>
          match pNumberTail rest with
          | some (lex, r) => some (.num (String.mk ('-' :: lex)), r)
          | none => none
      | c :: rest =>
          if c.isDigit then
            match pNumberTail (c :: rest) with
            | some (lex, r) => some (.num (String.mk lex), r)
            | none => none
          else none
      | [] => none

/-- Parse the comma-separated elements of a JSON array. -/
def pElems : Nat → List Char → List JSValue → Option (JSValue × List Char)
  | 0, _, _ => none
  | fuel + 1, cs, acc =>
      match pVal fuel cs with
      | none => none
      | some (v, rest) =>
          match skipWs rest with
          | ',' :: r => pElems fuel r (acc ++ [v])
          | ']' :: r => some (.arr (acc ++ [v]), r)
          | _ => none

/-- Parse the comma-separated members of a JSON object. -/
def pMembers : Nat → List Char → List (String × JSValue) → Option (JSValue × List Char)
  | 0, _, _ => none
  | fuel + 1, cs, acc =>
      match skipWs cs with
      | '"' :: rest =>
          match pStringAux rest [] with
          | none => none
          | some (k, r0) =>
              match skipWs r0 with
              | ':' :: r1 =>
                  match pVal fuel r1 with
                  | none => none
                  | some (v, r2) =>
                      match skipWs r2 with
                      | ',' :: r3 => pMembers fuel r3 (acc ++ [(String.mk k, v)])
                      | '}' :: r3 => some (.obj (acc ++ [(String.mk k, v)]), r3)
                      | _ => none
              | _ => none
      | _ => none

end

/-- `JSON.parse(s)`, `none` when it throws a `SyntaxError`. -/
def parseJSON (s : String) : Option JSValue :=
  match pVal (s.data.length + 2) s.data with
  | some (v, rest) => if (skipWs rest).isEmpty then some v else none
  | none => none

/-! ## Error taxonomy (`src/types.ts`)

`HttpClientError` is the base class; `TimeoutError`, `NetworkError` and
`ValidationError` subclass it, prefixing their messages.  The
`ValidationError` class is exported by the package (`src/index.ts`) and
exercised by `__tests__/types.test.ts`; the client itself never throws it.
`typeError` stands for a bare JavaScript `TypeError` escaping uncaught
(e.g. `JSON.stringify` on a circular structure). -/

inductive JSError where
  | httpError (message : String) (statusCode : Option Nat)
  | timeoutError (timeoutMs : Nat)
  | networkError (detail : String)
  | validationError (detail : String)
  | typeError (msg : String)
  deriving Repr, DecidableEq

/-- The `message` property of the thrown error object. -/
def JSError.message : JSError → String
  | .httpError m _ => m
  | .timeoutError t => "Request timeout after " ++ toString t ++ "ms"
  | .networkError d => "Network error: " ++ d
  | .validationError d => "Validation error: " ++ d
  | .typeError m => m

/-- The `name` property of the thrown error object. -/
def JSError.name : JSError → String
  | .httpError _ _ => "HttpClientError"
  | .timeoutError _ => "TimeoutError"
  | .networkError _ => "NetworkError"
  | .validationError _ => "ValidationError"
  | .typeError _ => "TypeError"

/-- Whether the error is an instance of the `ValidationError` class. -/
def JSError.isValidation : JSError → Bool
  | .validationError _ => true
  | _ => false

/-- Whether the error is an instance of the `NetworkError` class. -/
def JSError.isNetwork : JSError → Bool
  | .networkError _ => true
  | _ => false

/-! ## String-keyed header/object maps with JS object-spread semantics -/

/-- Property read `o[k]` on a JS object modelled as an assoc list with
unique keys (first match). -/
def objGet (o : List (String × String)) (k : String) : Option String :=
  (o.find? (fun p => p.1 = k)).map (·.2)

/-- Property write `o[k] = v`: overwrite in place if present, else append
(JS objects preserve insertion order). -/
def objSet (o : List (String × String)) (k v : String) : List (String × String) :=
  if o.any (fun p => p.1 = k) then
    o.map (fun p => if p.1 = k then (k, v) else p)
  else o ++ [(k, v)]

/-- Object spread `{...a, ...b}`. -/
def objMerge (a b : List (String × String)) : List (String × String) :=
  b.foldl (fun acc p => objSet acc p.1 p.2) a

/-! ## Form encoding (`_serializeFormData`, via `URLSearchParams`) -/

/-- UTF-8 bytes of a Unicode code point. -/
def utf8Bytes (n : Nat) : List Nat :=
  if n < 0x80 then [n]
  else if n < 0x800 then [0xC0 + n / 64, 0x80 + n % 64]
  else if n < 0x10000 then [0xE0 + n / 4096, 0x80 + (n / 64) % 64, 0x80 + n % 64]
  else [0xF0 + n / 262144, 0x80 + (n / 4096) % 64, 0x80 + (n / 64) % 64, 0x80 + n % 64]

/-- Characters `URLSearchParams` leaves unescaped: alphanumerics and `*-._`. -/
def isFormSafe (c : Char) : Bool :=
  c.isAlphanum || c = '*' || c = '-' || c = '.' || c = '_'

/-- `application/x-www-form-urlencoded` encoding of one character. -/
def formEncodeChar (c : Char) : List Char :=
  if isFormSafe c then [c]
  else if c = ' ' then ['+']
  else (utf8Bytes c.toNat).flatMap (fun b => ['%', hexDigit (b / 16), hexDigit (b % 16)])

/-- Percent-encode a full string as `URLSearchParams` does. -/
def formEncode (s : String) : String :=
  String.mk (s.data.flatMap formEncodeChar)

/-- `Object.entries(data)`: own enumerable entries of a JS value. -/
def jsEntries : JSData → List (String × JSData)
  | .obj fields => fields
  | .arr elems => (elems.enum.map (fun p => (toString p.1, p.2)))
  | .str s => (s.data.enum.map (fun p => (toString p.1, JSData.str (String.mk [p.2]))))
  | _ => []

/-- `_serializeFormData`: append `key=String(value)` pairs, dropping
entries whose value is `null`/`undefined`, and URL-encode. -/
def serializeFormData (data : JSData) : String :=
  let pairs := (jsEntries data).filterMap (fun p =>
    match p.2 with
    | .jnull => none
    | .jsUndefined => none
    | v => some (formEncode p.1 ++ "=" ++ formEncode (jsToString v)))
  String.intercalate "&" pairs

/-! ## Multipart encoding (`_serializeMultipartData`) -/

/-- JS truthiness of a payload value. -/
def jsTruthy : JSData → Bool
  | .jnull => false
  | .jsUndefined => false
  | .str s => decide (s ≠ "")
  | .num n => decide (n ≠ 0)
  | .bool b => b
  | _ => true

/-- Property access `o.k` on a payload object (absent → `undefined`). -/
def jsGetField (fields : List (String × JSData)) (k : String) : JSData :=
  ((fields.find? (fun p => p.1 = k)).map (·.2)).getD .jsUndefined

/-- Serialize one multipart field.  String and `Buffer` values become plain
parts; objects with truthy `filename` and `content` become file parts
(content must be a `Buffer`, or `Buffer.concat` throws); `null` values
throw on the `value.filename` read; everything else is skipped. -/
def multipartPart (boundary : String) (key : String) (value : JSData) :
    Except JSError (List Char) :=
  let head := ("--" ++ boundary ++ "\r\n").data
  match value with
  | .str s =>
      .ok (head ++ ("Content-Disposition: form-data; name=\"" ++ key ++ "\"\r\n\r\n").data
        ++ s.data ++ "\r\n".data)
  | .buffer b =>
      .ok (head ++ ("Content-Disposition: form-data; name=\"" ++ key ++ "\"\r\n\r\n").data
        ++ b ++ "\r\n".data)
  | .jnull => .error (.typeError "Cannot read properties of null (reading 'filename')")
  | .obj fields =>
      let fn := jsGetField fields "filename"
      let content := jsGetField fields "content"
      if jsTruthy fn && jsTruthy content then
        let ct := if jsTruthy (jsGetField fields "contentType")
          then jsToString (jsGetField fields "contentType")
          else "application/octet-stream"
        match content with
        | .buffer b =>
            .ok (head
              ++ ("Content-Disposition: form-data; name=\"" ++ key ++ "\"; filename=\""
                  ++ jsToString fn ++ "\"\r\n").data
              ++ ("Content-Type: " ++ ct ++ "\r\n\r\n").data
              ++ b ++ "\r\n".data)
        | _ => .error (.typeError "\"list\" argument must be an Array of Buffers")
      else .ok []
  | _ => .ok []

/-- `_serializeMultipartData` over the entries of the payload object,
terminated by the closing boundary marker. -/
def serializeMultipartData (boundary : String) (data : JSData) :
    Except JSError (List Char) := do
  let parts ← (jsEntries data).foldlM (fun acc p => do
    let part ← multipartPart boundary p.1 p.2
    pure (acc ++ part)) []
  pure (parts ++ ("--" ++ boundary ++ "--\r\n").data)

/-! ## `_serializeData` -/

/-- A request body: the code hands either a string or a `Buffer` to the
transport. -/
inductive BodyVal where
  | str (s : String)
  | buf (b : List Char)
  deriving Repr, DecidableEq

/-- Bytes of the body as written on the wire. -/
def BodyVal.toBytes : BodyVal → List Char
  | .str s => s.data
  | .buf b => b

/-- Result of `_serializeData`: the body (or none) and the headers emitted
by the encoder. -/
structure Serialized where
  body : Option BodyVal
  headers : List (String × String)
  deriving Repr, DecidableEq

/-- Is the payload argument present (`data !== null && data !== undefined`)? -/
def dataPresent : JSData → Bool
  | .jnull => false
  | .jsUndefined => false
  | _ => true

/-- `_serializeData(data, contentType)`.  `boundary` stands for the random
multipart boundary token (`Math.random()` made explicit).  Unknown content
types fall through to JSON. -/
def serializeData (data : JSData) (contentType : String) (boundary : String) :
    Except JSError Serialized :=
  if dataPresent data = false then .ok ⟨none, []⟩
  else
    if contentType = "form" then
      .ok ⟨some (.str (serializeFormData data)),
           [("Content-Type", "application/x-www-form-urlencoded")]⟩
    else if contentType = "multipart" then
      match serializeMultipartData boundary data with
      | .ok body =>
          .ok ⟨some (.buf body),
               [("Content-Type", "multipart/form-data; boundary=" ++ boundary)]⟩
      | .error e => .error e
    else if contentType = "text" then
      .ok ⟨some (.str (jsToString data)), [("Content-Type", "text/plain")]⟩
    else if contentType = "binary" then
      match data with
      | .buffer b => .ok ⟨some (.buf b), [("Content-Type", "application/octet-stream")]⟩
      | _ => .error (.networkError "Binary content type requires Buffer data")
    else
      -- 'json' and the default case are identical
      match jsonStringify data with
      | some s => .ok ⟨some (.str s), [("Content-Type", "application/json")]⟩
      | none => .error (.typeError "Converting circular structure to JSON")

/-! ## `_parseResponse` -/

/-- Decoded response data: a string, a parsed JSON value, or the raw
buffer. -/
inductive ResponseData where
  | str (s : String)
  | json (v : JSValue)
  | buf (b : List Char)
  deriving Repr

/-- JS `a || b` on possibly-absent strings (empty string is falsy). -/
def jsOrStr : Option String → Option String → Option String
  | some s, y => if s = "" then y else some s
  | none, y => y

/-- `response.headers['content-type'] || response.headers['Content-Type']`,
collapsed to `""` when the result is still falsy. -/
def getContentType (headers : List (String × String)) : String :=
  (jsOrStr (objGet headers "content-type") (objGet headers "Content-Type")).getD ""

/-- `_parseResponse`: content-type-driven decoding of the accumulated body
buffer.  The only fallible operation inside the `try` is `JSON.parse`, and
its failure is caught and degraded to the raw text, so the function never
produces an error. -/
def parseResponse (headers : List (String × String)) (body : List Char) :
    Except JSError ResponseData :=
  let contentType := getContentType headers
  if body.length = 0 then .ok (.str "")
  else if contentType = "" then .ok (.str (String.mk body))
  else if jsIncludes contentType "application/json" then
    let jsonString := String.mk body
    if (trimChars body).isEmpty then .ok (.json (.obj []))
    else
      match parseJSON jsonString with
      | some v => .ok (.json v)
      | none => .ok (.str jsonString)
  else if jsIncludes contentType "text/" then .ok (.str (String.mk body))
  else if jsIncludes contentType "application/octet-stream"
       || jsIncludes contentType "application/pdf"
       || jsIncludes contentType "image/" then .ok (.buf body)
  else if jsIncludes contentType "application/xml"
       || jsIncludes contentType "text/xml"
       || jsIncludes contentType "application/xhtml+xml" then .ok (.str (String.mk body))
  else .ok (.str (String.mk body))

/-! ## `_buildURL` -/

/-- `_buildURL(endpoint)`: absolute endpoints pass through; otherwise one
trailing slash is stripped from the base (`slice(0, -1)`), a leading slash
is added to the endpoint when missing, and the two are concatenated; the
empty (falsy) base has a fast path. -/
def buildURL (baseURL endpoint : String) : String :=
  if listStartsWith endpoint.data "http://".data
     || listStartsWith endpoint.data "https://".data then
    endpoint
  else if baseURL.data.isEmpty then
    (if listStartsWith endpoint.data ['/'] then endpoint
     else String.mk ('/' :: endpoint.data))
  else
    let base := if listEndsWith baseURL.data ['/'] then baseURL.data.dropLast else baseURL.data
    let e := if listStartsWith endpoint.data ['/'] then endpoint.data else '/' :: endpoint.data
    String.mk (base ++ e)

/-! ## Transport model (`_makeRequest`)

A network exchange is abstracted as the trace of events Node delivers to
the handlers registered in `_makeRequest`: an optional `secureConnect`
instant, a sequence of timestamped `data` chunks, and an optional `end`
instant, together with the response status line and headers.  Timestamps
are monotonic-clock nanoseconds (`process.hrtime.bigint()`). -/

/-- The hard response-size ceiling (`50 * 1024 * 1024`). -/
def maxResponseSize : Nat := 50 * 1024 * 1024

/-- The `ResponseTimings` record: `start` holds the raw nanosecond clock
value; the other three fields hold millisecond durations since `start`
(`(now - start) / 1000000n`). -/
structure Timings where
  start : Nat
  tlsHandshake : Option Nat
  ttfb : Option Nat
  total : Option Nat
  deriving Repr, DecidableEq

/-- Millisecond duration since `start` (`bigint` division truncates). -/
def msSince (start t : Nat) : Nat := (t - start) / 1000000

/-- One observed exchange at the transport level. -/
structure Exchange where
  isHttps : Bool
  start : Nat
  secureAt : Option Nat
  chunks : List (Nat × List Char)
  endAt : Option Nat
  statusCode : Nat
  statusMessage : String
  headers : List (String × String)
  deriving Repr

/-- Well-formed exchange: event timestamps are ordered as the transport
delivers them (handshake before body chunks before end), and the status
code is a real HTTP status. -/
structure Exchange.WF (e : Exchange) : Prop where
  start_le_secure : ∀ t ∈ e.secureAt, e.start ≤ t
  start_le_chunks : ∀ p ∈ e.chunks, e.start ≤ p.1
  secure_le_chunks : ∀ t ∈ e.secureAt, ∀ p ∈ e.chunks, t ≤ p.1
  chunks_sorted : List.Chain' (· ≤ ·) (e.chunks.map Prod.fst)
  chunks_le_end : ∀ te ∈ e.endAt, ∀ p ∈ e.chunks, p.1 ≤ te
  secure_le_end : ∀ t ∈ e.secureAt, ∀ te ∈ e.endAt, t ≤ te
  start_le_end : ∀ te ∈ e.endAt, e.start ≤ te
  status_real : 100 ≤ e.statusCode

/-- State of the response-receiving loop in `_makeRequest`. -/
structure RecvState where
  timings : Timings
  chunks : List (List Char)
  totalSize : Nat
  aborted : Bool
  deriving Repr

/-- The `if (timings.ttfb === null)` guard at the top of the `data`
handler: stamp `ttfb` on the first chunk only. -/
def stampTTFB (st : RecvState) (t : Nat) : RecvState :=
  match st.timings.ttfb with
  | none => { st with timings := { st.timings with ttfb := some (msSince st.timings.start t) } }
  | some _ => st

/-- The `res.on('data')` handler: stamp `ttfb` on the first chunk, bump the
size counter, and either abort (`req.destroy()` + reject) when the counter
crosses the ceiling — without appending the chunk — or append it. -/
def recvStep (st : RecvState) (tc : Nat × List Char) : RecvState :=
  if st.aborted then st
  else
    let st1 := stampTTFB st tc.1
    let newSize := st1.totalSize + tc.2.length
    if newSize > maxResponseSize then
      { st1 with totalSize := newSize, aborted := true }
    else
      { st1 with totalSize := newSize, chunks := st1.chunks ++ [tc.2] }

/-- The receiving state just before the first data chunk: `start` stamped
at dispatch, `tlsHandshake` stamped by the `secureConnect` handler (which
`_makeRequest` attaches only for HTTPS). -/
def recvInit (e : Exchange) : RecvState :=
  { timings :=
      { start := e.start
        tlsHandshake := if e.isHttps then e.secureAt.map (msSince e.start) else none
        ttfb := none
        total := none }
    chunks := []
    totalSize := 0
    aborted := false }

/-- Run the receiving loop of an exchange: stamp `tlsHandshake` when the
secure channel is confirmed (HTTPS only), then feed every data chunk. -/
def runRecv (e : Exchange) : RecvState :=
  e.chunks.foldl recvStep (recvInit e)

/-- The receiving state after the first `n` data chunks (an intermediate
instant of the exchange). -/
def recvAt (e : Exchange) (n : Nat) : RecvState :=
  (e.chunks.take n).foldl recvStep (recvInit e)

/-- The raw response handed to `_parseResponse` / raw mode. -/
structure RawHttpResponse where
  status : Nat
  headers : List (String × String)
  body : List Char
  timings : Timings
  deriving Repr

/-- Overall result of `_makeRequest` on an exchange: the settled outcome
(`none` while the promise is still pending, i.e. no `end` was delivered),
plus the internal timing record and accumulated buffer for inspection. -/
structure MakeResult where
  outcome : Option (Except JSError RawHttpResponse)
  timings : Timings
  bodyAccum : List (List Char)
  aborted : Bool

/-- `_makeRequest`: receive, then on `end` stamp `total`, concatenate the
chunks, and reject non-2xx statuses with `HTTP <code>: <message>`; an
oversize abort rejects with `Network error: Response too large` and never
reaches the `end` handler (the request was destroyed). -/
def makeRequest (e : Exchange) : MakeResult :=
  let st := runRecv e
  if st.aborted then
    { outcome := some (.error (.networkError "Response too large")),
      timings := st.timings, bodyAccum := st.chunks, aborted := true }
  else
    match e.endAt with
    | none => { outcome := none, timings := st.timings, bodyAccum := st.chunks, aborted := false }
    | some te =>
      let tim := { st.timings with total := some (msSince e.start te) }
      let body := st.chunks.flatten
      if e.statusCode ≠ 0 ∧ (e.statusCode < 200 ∨ 300 ≤ e.statusCode) then
        { outcome := some (.error (.httpError
            ("HTTP " ++ toString e.statusCode ++ ": " ++ e.statusMessage)
            (some e.statusCode))),
          timings := tim, bodyAccum := st.chunks, aborted := false }
      else
        { outcome := some (.ok
            { status := e.statusCode, headers := e.headers, body := body, timings := tim }),
          timings := tim, bodyAccum := st.chunks, aborted := false }

/-- Specification-side reading of the size ceiling: scanning the chunk
lengths, does the running total ever cross the ceiling? -/
def crossesCeiling : Nat → List Nat → Bool
  | _, [] => false
  | acc, n :: ns => if acc + n > maxResponseSize then true else crossesCeiling (acc + n) ns

/-! ## Configuration merging and the orchestrator (`_request`) -/

/-- The client's persistent default configuration. -/
structure DefaultConfig where
  headers : List (String × String)
  timeout : Nat
  rawResponse : Bool
  contentType : String
  deriving Repr

/-- Per-call request configuration (absent fields are `undefined`). -/
structure RequestConfig where
  method : Option String
  headers : Option (List (String × String))
  timeout : Option Nat
  contentType : Option String
  rawResponse : Option Bool
  deriving Repr

/-- The client: base URL plus default configuration. -/
structure ClientModel where
  baseURL : String
  defaultConfig : DefaultConfig
  deriving Repr

/-- Result of `_mergeConfig`: call-specific fields override defaults,
headers merge key-wise. -/
structure MergedConfig where
  method : Option String
  headers : List (String × String)
  timeout : Nat
  contentType : String
  rawResponse : Bool
  deriving Repr

/-- `_mergeConfig(config)`: object spread of the call config over the
defaults; when the call config carries headers they are spread key-wise
over the default headers. -/
def mergeConfig (defCfg : DefaultConfig) (cfg : RequestConfig) : MergedConfig :=
  { method := cfg.method
    headers :=
      match cfg.headers with
      | none => defCfg.headers
      | some h => objMerge defCfg.headers h
    timeout := cfg.timeout.getD defCfg.timeout
    contentType := cfg.contentType.getD defCfg.contentType
    rawResponse := cfg.rawResponse.getD defCfg.rawResponse }

/-- `mergedConfig.contentType || this.defaultConfig.contentType || 'json'`
(JS falsy chain: the empty string falls through). -/
def effContentType (merged : MergedConfig) (defCfg : DefaultConfig) : String :=
  if merged.contentType ≠ "" then merged.contentType
  else if defCfg.contentType ≠ "" then defCfg.contentType
  else "json"

/-- The `endpoint` argument as JavaScript receives it. -/
inductive JSEndpoint where
  | str (s : String)
  | nullish
  | nonString
  deriving Repr, DecidableEq

/-- Everything `_request` assembles before invoking `_makeRequest`. -/
structure PreparedRequest where
  url : String
  method : Option String
  headers : List (String × String)
  body : Option BodyVal
  timeout : Nat
  rawResponse : Bool
  deriving Repr

/-- The validation and assembly phase of `_request`, everything that runs
strictly before `_makeRequest` (and hence before any network I/O):
endpoint validation, the POST/PUT JSON-serializability pre-check, config
merging, body serialization, header assembly and URL resolution.
`boundary` models the random multipart boundary; `data = none` is an
omitted payload argument (`undefined`). -/
def prepareRequest (client : ClientModel) (endpoint : JSEndpoint)
    (cfg : RequestConfig) (data : Option JSData) (boundary : String) :
    Except JSError PreparedRequest :=
  let d := data.getD .jsUndefined
  match endpoint with
  | .nullish => .error (.networkError "Invalid endpoint: must be a non-empty string")
  | .nonString => .error (.networkError "Invalid endpoint: must be a non-empty string")
  | .str ep =>
    if ep = "" then .error (.networkError "Invalid endpoint: must be a non-empty string")
    else if dataPresent d && (cfg.method = some "POST" || cfg.method = some "PUT")
         && d.typeofObject && !d.isBuffer && cfg.contentType = some "json"
         && (jsonStringify d).isNone then
      .error (.networkError "Invalid request data: cannot be serialized to JSON")
    else
      let merged := mergeConfig client.defaultConfig cfg
      let ct := effContentType merged client.defaultConfig
      match serializeData d ct boundary with
      | .error e => .error e
      | .ok ser =>
          .ok { url := buildURL client.baseURL ep
                method := merged.method
                headers := objMerge merged.headers ser.headers
                body := ser.body
                timeout := merged.timeout
                rawResponse := merged.rawResponse }

/-- The `data` field of the value `_request` resolves with. -/
inductive CallData where
  | parsed (d : ResponseData)
  | raw (r : RawHttpResponse)

/-- The `HttpResponse` object `_request` resolves with. -/
structure CallResult where
  data : CallData
  timings : Timings
  statusCode : Nat
  headers : List (String × String)

/-- Full `_request` pipeline.  `server` maps the prepared request to the
transport-level exchange it provokes.  The second component records
whether the transport was invoked at all (`false` = zero bytes written to
any transport); the first is `none` while the call is still pending. -/
def requestModel (client : ClientModel) (endpoint : JSEndpoint)
    (cfg : RequestConfig) (data : Option JSData) (boundary : String)
    (server : PreparedRequest → Exchange) :
    Option (Except JSError CallResult) × Bool :=
  match prepareRequest client endpoint cfg data boundary with
  | .error e => (some (.error e), false)
  | .ok p =>
      let r := makeRequest (server p)
      ( r.outcome.map (fun out =>
          match out with
          | .error e => .error e
          | .ok raw =>
              if p.rawResponse then
                .ok { data := .raw raw, timings := raw.timings,
                      statusCode := raw.status, headers := raw.headers }
              else
                match parseResponse raw.headers raw.body with
                | .ok dd => .ok { data := .parsed dd, timings := raw.timings,
                                  statusCode := raw.status, headers := raw.headers }
                | .error e => .error e),
        true )

/-! ## Specification-side definitions

These definitions are written from the specification's wording, to be
compared with the embeddings above. -/

/-- Spec: "strip exactly one trailing slash from the base (if present)". -/
def stripOneTrailingSlash (l : List Char) : List Char :=
  if l.getLast? = some '/' then l.dropLast else l

/-- Spec: "ensure exactly one leading slash on the endpoint" (add one when
missing). -/
def ensureOneLeadingSlash (l : List Char) : List Char :=
  if l.head? = some '/' then l else '/' :: l

/-- The URL-resolution contract as the specification words it. -/
def resolveSpec (base ep : String) : String :=
  if listStartsWith ep.data "http://".data || listStartsWith ep.data "https://".data then ep
  else String.mk (stripOneTrailingSlash base.data ++ ensureOneLeadingSlash ep.data)

/-- Does a decoded response equal a form-map payload (string-keyed map of
scalar strings)?  The only representation a decoded map could take is a
parsed JSON object with string fields. -/
def matchesFormMap : ResponseData → List (String × String) → Bool
  | .json (.obj jf), m =>
      jf.length = m.length &&
      (jf.zip m).all (fun p =>
        match p with
        | ((k, .str v), (k', v')) => k = k' && v = v'
        | _ => false)
  | _, _ => false

/-- The ladder comparison exactly as the claim states it: the `start`,
`tlsHandshake`, `ttfb`, `total` field values must be non-decreasing in that
order, with unset fields skipped. -/
def chainLe : List Nat → Bool
  | [] => true
  | [_] => true
  | a :: b :: r => a ≤ b && chainLe (b :: r)

/-- Field values of a timing record in ladder order, unset fields skipped. -/
def timingsChain (t : Timings) : List Nat :=
  t.start :: ([t.tlsHandshake, t.ttfb, t.total].filterMap id)

/-! ## Helper lemmas -/

theorem listStartsWith_slash (l : List Char) :
    listStartsWith l ['/'] = true ↔ l.head? = some '/' := by
  cases l with
  | nil => simp [listStartsWith]
  | cons c cs => simp [listStartsWith]

theorem listEndsWith_slash (l : List Char) :
    listEndsWith l ['/'] = true ↔ l.getLast? = some '/' := by
  have h : listEndsWith l ['/'] = listStartsWith l.reverse ['/'] := rfl
  rw [h, listStartsWith_slash, List.head?_reverse]

theorem string_mk_data (s : String) : String.mk s.data = s := by
  cases s; rfl

/-! ## C5 — URL resolution -/

/-- C5: for every base address and endpoint, `_buildURL` returns absolute
endpoints unchanged and otherwise concatenates the base (one trailing
slash stripped) with the endpoint (one leading slash ensured), the empty
base yielding the root-relative path; together with the four concrete
examples from the specification. -/
theorem buildURL_matches_spec :
    (∀ base ep, buildURL base ep = resolveSpec base ep)
    ∧ buildURL "https://api.example.com" "/users" = "https://api.example.com/users"
    ∧ buildURL "https://api.example.com/" "/users" = "https://api.example.com/users"
    ∧ buildURL "https://api.example.com" "users" = "https://api.example.com/users"
    ∧ buildURL "https://api.example.com" "https://other.com/x" = "https://other.com/x" := by
  refine ⟨?_, by decide, by decide, by decide, by decide⟩
  intro base ep
  unfold buildURL resolveSpec
  split
  · rfl
  · rename_i hscheme
    by_cases hb : base.data.isEmpty
    · have hbe : base.data = [] := by simpa [List.isEmpty_iff] using hb
      have hstrip : stripOneTrailingSlash base.data = [] := by
        simp [stripOneTrailingSlash, hbe]
      rw [if_pos hb, hstrip, List.nil_append]
      by_cases hsl : listStartsWith ep.data ['/'] = true
      · have : ep.data.head? = some '/' := (listStartsWith_slash _).mp hsl
        rw [if_pos hsl, ensureOneLeadingSlash, if_pos this, string_mk_data]
      · have : ¬ ep.data.head? = some '/' := fun h =>
          hsl ((listStartsWith_slash _).mpr h)
        rw [if_neg hsl, ensureOneLeadingSlash, if_neg this]
    · rw [if_neg hb]
      have hbase : (if listEndsWith base.data ['/'] then base.data.dropLast else base.data)
          = stripOneTrailingSlash base.data := by
        unfold stripOneTrailingSlash
        by_cases he : listEndsWith base.data ['/'] = true
        · rw [if_pos he, if_pos ((listEndsWith_slash _).mp he)]
        · rw [if_neg he, if_neg (fun h => he ((listEndsWith_slash _).mpr h))]
      have hend : (if listStartsWith ep.data ['/'] then ep.data else '/' :: ep.data)
          = ensureOneLeadingSlash ep.data := by
        unfold ensureOneLeadingSlash
        by_cases hsl : listStartsWith ep.data ['/'] = true
        · rw [if_pos hsl, if_pos ((listStartsWith_slash _).mp hsl)]
        · rw [if_neg hsl, if_neg (fun h => hsl ((listStartsWith_slash _).mpr h))]
      rw [hbase, hend]

/-! ## C7 — empty body decodes to the empty string -/

/-- C7: a response with an empty (zero-length) body decodes to the empty
string no matter what the headers declare — including `application/json`,
binary types, or no content-type header at all. -/
theorem parseResponse_empty_body (headers : List (String × String)) :
    parseResponse headers [] = .ok (.str "") := rfl

/-! ## C10 — whitespace-only JSON body decodes to the empty object -/

/-- C10: a non-empty body that trims to whitespace, under a content type
containing `application/json`, decodes to the empty object — not the raw
text and not the empty string; `JSON.parse` is never consulted. -/
theorem parseResponse_whitespace_json (headers : List (String × String))
    (body : List Char) (hne : body ≠ [])
    (htrim : trimChars body = [])
    (hct : jsIncludes (getContentType headers) "application/json" = true) :
    parseResponse headers body = .ok (.json (.obj []))
    ∧ parseResponse headers body ≠ .ok (.str (String.mk body))
    ∧ parseResponse headers body ≠ .ok (.str "") := by
  have hct' : getContentType headers ≠ "" := by
    intro h
    rw [h] at hct
    exact absurd hct (by decide)
  have hlen : ¬ body.length = 0 := by
    simpa [List.length_eq_zero] using hne
  have hmain : parseResponse headers body = .ok (.json (.obj [])) := by
    unfold parseResponse
    rw [if_neg hlen, if_neg hct', if_pos hct, if_pos (by simp [htrim])]
  refine ⟨hmain, ?_, ?_⟩ <;> rw [hmain] <;> simp

/-- Witness for C10 at the concrete body `" "`. -/
theorem parseResponse_whitespace_json_witness :
    parseResponse [("content-type", "application/json")] " ".data
      = .ok (.json (.obj [])) :=
  (parseResponse_whitespace_json [("content-type", "application/json")] " ".data
    (by decide) (by decide) (by decide)).1

/-! ## C6 — lenient JSON decode -/

/-- C6 as stated is false: a body of one space has unparsable JSON text
(`JSON.parse` throws on it), yet the decoder returns the empty object, not
the raw body text. -/
theorem parseResponse_json_failure_not_always_raw :
    parseJSON " " = none
    ∧ parseResponse [("content-type", "application/json")] " ".data
        = .ok (.json (.obj []))
    ∧ parseResponse [("content-type", "application/json")] " ".data
        ≠ .ok (.str " ") := by
  have h2 : parseResponse [("content-type", "application/json")] " ".data
      = .ok (.json (.obj [])) := rfl
  refine ⟨rfl, h2, ?_⟩
  rw [h2]
  simp

/-- C6 amended: for a non-empty body that does not trim to whitespace,
under a content type containing `application/json`, a structural JSON
parse failure makes the decoder return the raw body text unmodified, and
no error is raised. -/
theorem parseResponse_json_failure_returns_raw (headers : List (String × String))
    (body : List Char) (hne : body ≠ [])
    (htrim : trimChars body ≠ [])
    (hct : jsIncludes (getContentType headers) "application/json" = true)
    (hfail : parseJSON (String.mk body) = none) :
    parseResponse headers body = .ok (.str (String.mk body)) := by
  have hct' : getContentType headers ≠ "" := by
    intro h
    rw [h] at hct
    exact absurd hct (by decide)
  have hlen : ¬ body.length = 0 := by
    simpa [List.length_eq_zero] using hne
  unfold parseResponse
  rw [if_neg hlen, if_neg hct', if_pos hct,
    if_neg (by simpa [List.isEmpty_iff] using htrim), hfail]

/-- Witness for the amended C6 at a concrete body starting with an unmatched opening brace. -/
theorem parseResponse_json_failure_returns_raw_witness :
    parseResponse [("content-type", "application/json; charset=utf-8")] "\x7boops".data
      = .ok (.str "\x7boops") :=
  parseResponse_json_failure_returns_raw
    [("content-type", "application/json; charset=utf-8")] "\x7boops".data
    (by decide) (by decide) (by decide) rfl

/-! ## C2 — codec round trips -/

theorem parse_text_plain (s : String) :
    parseResponse [("content-type", "text/plain")] s.data = .ok (.str s) := by
  obtain ⟨l⟩ := s
  cases l with
  | nil => rfl
  | cons c cs => rfl

theorem parse_urlencoded (s : String) :
    parseResponse [("content-type", "application/x-www-form-urlencoded")] s.data
      = .ok (.str s) := by
  obtain ⟨l⟩ := s
  cases l with
  | nil => rfl
  | cons c cs => rfl

theorem parse_octet_stream (b : List Char) (hne : b ≠ []) :
    parseResponse [("content-type", "application/octet-stream")] b = .ok (.buf b) := by
  cases b with
  | nil => exact absurd rfl hne
  | cons c cs => rfl

/-- C2 as stated is false for form-map payloads: encoding the map
`{a: "1"}` under form mode and decoding the bytes under the emitted
`application/x-www-form-urlencoded` content type yields the URL-encoded
string `"a=1"`, which is not equal to the original map. -/
theorem form_roundtrip_fails :
    serializeData (.obj [("a", .str "1")]) "form" "b"
      = .ok ⟨some (.str "a=1"), [("Content-Type", "application/x-www-form-urlencoded")]⟩
    ∧ parseResponse [("content-type", "application/x-www-form-urlencoded")] "a=1".data
        = .ok (.str "a=1")
    ∧ matchesFormMap (.str "a=1") [("a", "1")] = false :=
  ⟨rfl, rfl, rfl⟩

/-- C2 amended: string payloads under text mode always round-trip, and
byte-buffer payloads under binary mode round-trip when non-empty (an empty
buffer decodes to the empty string instead); form-map payloads do not
round-trip — the decoder returns the URL-encoded string itself. -/
theorem codec_roundtrip_amended :
    (∀ s : String,
        serializeData (.str s) "text" "b"
          = .ok ⟨some (.str s), [("Content-Type", "text/plain")]⟩
        ∧ parseResponse [("content-type", "text/plain")] s.data = .ok (.str s))
    ∧ (∀ b : List Char, b ≠ [] →
        serializeData (.buffer b) "binary" "b"
          = .ok ⟨some (.buf b), [("Content-Type", "application/octet-stream")]⟩
        ∧ parseResponse [("content-type", "application/octet-stream")] b = .ok (.buf b))
    ∧ (∀ d : JSData,
        parseResponse [("content-type", "application/x-www-form-urlencoded")]
          (serializeFormData d).data = .ok (.str (serializeFormData d))) := by
  refine ⟨fun s => ⟨rfl, parse_text_plain s⟩,
          fun b hne => ⟨rfl, parse_octet_stream b hne⟩,
          fun d => parse_urlencoded (serializeFormData d)⟩

/-- Witness for the amended C2 at the concrete buffer `['a']`. -/
theorem codec_roundtrip_amended_witness :
    parseResponse [("content-type", "application/octet-stream")] ['a'] = .ok (.buf ['a']) :=
  (codec_roundtrip_amended.2.1 ['a'] (by decide)).2

/-! ## Receive-loop lemmas -/

/-- Total byte size of the accumulated chunk list. -/
def sumLen (ls : List (List Char)) : Nat := (ls.map List.length).sum

theorem stampTTFB_start (st : RecvState) (t : Nat) :
    (stampTTFB st t).timings.start = st.timings.start := by
  unfold stampTTFB
  cases h : st.timings.ttfb <;> simp

theorem stampTTFB_tls (st : RecvState) (t : Nat) :
    (stampTTFB st t).timings.tlsHandshake = st.timings.tlsHandshake := by
  unfold stampTTFB
  cases h : st.timings.ttfb <;> simp

theorem stampTTFB_total (st : RecvState) (t : Nat) :
    (stampTTFB st t).timings.total = st.timings.total := by
  unfold stampTTFB
  cases h : st.timings.ttfb <;> simp

theorem stampTTFB_chunks (st : RecvState) (t : Nat) :
    (stampTTFB st t).chunks = st.chunks := by
  unfold stampTTFB
  cases h : st.timings.ttfb <;> simp

theorem stampTTFB_totalSize (st : RecvState) (t : Nat) :
    (stampTTFB st t).totalSize = st.totalSize := by
  unfold stampTTFB
  cases h : st.timings.ttfb <;> simp

theorem stampTTFB_aborted (st : RecvState) (t : Nat) :
    (stampTTFB st t).aborted = st.aborted := by
  unfold stampTTFB
  cases h : st.timings.ttfb <;> simp

theorem stampTTFB_ttfb_none (st : RecvState) (t : Nat)
    (h : st.timings.ttfb = none) :
    (stampTTFB st t).timings.ttfb = some (msSince st.timings.start t) := by
  unfold stampTTFB
  rw [h]

theorem stampTTFB_ttfb_some (st : RecvState) (t : Nat) (x : Nat)
    (h : st.timings.ttfb = some x) :
    (stampTTFB st t).timings.ttfb = some x := by
  unfold stampTTFB
  rw [h]
  exact h

theorem recvStep_of_aborted (st : RecvState) (tc : Nat × List Char)
    (h : st.aborted = true) : recvStep st tc = st := by
  simp [recvStep, h]

theorem recvFold_of_aborted (l : List (Nat × List Char)) (st : RecvState)
    (h : st.aborted = true) : l.foldl recvStep st = st := by
  induction l with
  | nil => rfl
  | cons tc l ih => rw [List.foldl_cons, recvStep_of_aborted st tc h, ih]

theorem recvStep_not_aborted (st : RecvState) (tc : Nat × List Char)
    (h : st.aborted = false) :
    recvStep st tc =
      (if (stampTTFB st tc.1).totalSize + tc.2.length > maxResponseSize then
        { stampTTFB st tc.1 with
            totalSize := (stampTTFB st tc.1).totalSize + tc.2.length, aborted := true }
      else
        { stampTTFB st tc.1 with
            totalSize := (stampTTFB st tc.1).totalSize + tc.2.length,
            chunks := (stampTTFB st tc.1).chunks ++ [tc.2] }) := by
  simp [recvStep, h]

theorem recvStep_timings_eq (st : RecvState) (tc : Nat × List Char)
    (h : st.aborted = false) :
    (recvStep st tc).timings = (stampTTFB st tc.1).timings := by
  rw [recvStep_not_aborted st tc h]
  split <;> rfl

theorem recvStep_start (st : RecvState) (tc : Nat × List Char) :
    (recvStep st tc).timings.start = st.timings.start := by
  cases h : st.aborted
  · rw [recvStep_timings_eq st tc h, stampTTFB_start]
  · rw [recvStep_of_aborted st tc h]

theorem recvStep_tls (st : RecvState) (tc : Nat × List Char) :
    (recvStep st tc).timings.tlsHandshake = st.timings.tlsHandshake := by
  cases h : st.aborted
  · rw [recvStep_timings_eq st tc h, stampTTFB_tls]
  · rw [recvStep_of_aborted st tc h]

theorem recvStep_total (st : RecvState) (tc : Nat × List Char) :
    (recvStep st tc).timings.total = st.timings.total := by
  cases h : st.aborted
  · rw [recvStep_timings_eq st tc h, stampTTFB_total]
  · rw [recvStep_of_aborted st tc h]

theorem recvStep_ttfb_some (st : RecvState) (tc : Nat × List Char) (x : Nat)
    (h : st.timings.ttfb = some x) : (recvStep st tc).timings.ttfb = some x := by
  cases hab : st.aborted
  · rw [recvStep_timings_eq st tc hab, stampTTFB_ttfb_some st tc.1 x h]
  · rw [recvStep_of_aborted st tc hab]
    exact h

theorem recvFold_start (l : List (Nat × List Char)) (st : RecvState) :
    (l.foldl recvStep st).timings.start = st.timings.start := by
  induction l generalizing st with
  | nil => rfl
  | cons tc l ih => rw [List.foldl_cons, ih, recvStep_start]

theorem recvFold_tls (l : List (Nat × List Char)) (st : RecvState) :
    (l.foldl recvStep st).timings.tlsHandshake = st.timings.tlsHandshake := by
  induction l generalizing st with
  | nil => rfl
  | cons tc l ih => rw [List.foldl_cons, ih, recvStep_tls]

theorem recvFold_total (l : List (Nat × List Char)) (st : RecvState) :
    (l.foldl recvStep st).timings.total = st.timings.total := by
  induction l generalizing st with
  | nil => rfl
  | cons tc l ih => rw [List.foldl_cons, ih, recvStep_total]

theorem recvFold_ttfb_some (l : List (Nat × List Char)) (st : RecvState) (x : Nat)
    (h : st.timings.ttfb = some x) : (l.foldl recvStep st).timings.ttfb = some x := by
  induction l generalizing st with
  | nil => exact h
  | cons tc l ih => rw [List.foldl_cons]; exact ih _ (recvStep_ttfb_some st tc x h)

theorem recvFold_ttfb_first (t : Nat) (c : List Char) (l : List (Nat × List Char))
    (st : RecvState) (hab : st.aborted = false) (h : st.timings.ttfb = none) :
    (List.foldl recvStep st ((t, c) :: l)).timings.ttfb
      = some (msSince st.timings.start t) := by
  rw [List.foldl_cons]
  apply recvFold_ttfb_some
  rw [recvStep_timings_eq st (t, c) hab]
  exact stampTTFB_ttfb_none st t h

theorem recvStep_size_invariant (st : RecvState) (tc : Nat × List Char)
    (h : sumLen st.chunks ≤ maxResponseSize
      ∧ (st.aborted = false → sumLen st.chunks = st.totalSize)) :
    sumLen (recvStep st tc).chunks ≤ maxResponseSize
    ∧ ((recvStep st tc).aborted = false
        → sumLen (recvStep st tc).chunks = (recvStep st tc).totalSize) := by
  cases hab : st.aborted
  · rw [recvStep_not_aborted st tc hab]
    split
    · refine ⟨?_, fun hfalse => absurd hfalse (by simp)⟩
      simpa [stampTTFB_chunks] using h.1
    · rename_i hsize
      have hsz : st.totalSize + tc.2.length ≤ maxResponseSize := by
        have := stampTTFB_totalSize st tc.1
        omega
      have hsum : sumLen st.chunks = st.totalSize := h.2 hab
      constructor
      · simp only [sumLen, stampTTFB_chunks, List.map_append, List.sum_append,
          List.map_cons, List.map_nil, List.sum_cons, List.sum_nil]
        simp only [sumLen] at hsum
        omega
      · intro _
        simp only [sumLen, stampTTFB_chunks, stampTTFB_totalSize,
          List.map_append, List.sum_append, List.map_cons, List.map_nil,
          List.sum_cons, List.sum_nil]
        simp only [sumLen] at hsum
        omega
  · rw [recvStep_of_aborted st tc hab]
    exact h

theorem recvFold_size_invariant (l : List (Nat × List Char)) (st : RecvState)
    (h : sumLen st.chunks ≤ maxResponseSize
      ∧ (st.aborted = false → sumLen st.chunks = st.totalSize)) :
    sumLen (l.foldl recvStep st).chunks ≤ maxResponseSize := by
  induction l generalizing st with
  | nil => exact h.1
  | cons tc l ih =>
      rw [List.foldl_cons]
      refine ih _ ⟨(recvStep_size_invariant st tc h).1, (recvStep_size_invariant st tc h).2⟩

theorem recvFold_crosses (l : List (Nat × List Char)) (st : RecvState)
    (h : st.aborted = false) :
    (l.foldl recvStep st).aborted
      = crossesCeiling st.totalSize (l.map (fun p => p.2.length)) := by
  induction l generalizing st with
  | nil => simpa [crossesCeiling] using h
  | cons tc l ih =>
      rw [List.foldl_cons, List.map_cons]
      rw [recvStep_not_aborted st tc h]
      split
      · rename_i hsize
        rw [recvFold_of_aborted _ _ rfl]
        have hgt : st.totalSize + tc.2.length > maxResponseSize := by
          have := stampTTFB_totalSize st tc.1
          omega
        simp [crossesCeiling, hgt]
      · rename_i hsize
        have hle : ¬ st.totalSize + tc.2.length > maxResponseSize := by
          have := stampTTFB_totalSize st tc.1
          omega
        rw [ih _ (by simp [stampTTFB_aborted, h])]
        simp only [stampTTFB_totalSize]
        simp [crossesCeiling, hle]

theorem runRecv_ttfb_nil (e : Exchange) (h : e.chunks = []) :
    (runRecv e).timings.ttfb = none := by
  unfold runRecv
  rw [h]
  rfl

theorem runRecv_ttfb_cons (e : Exchange) (t : Nat) (c : List Char)
    (l : List (Nat × List Char)) (h : e.chunks = (t, c) :: l) :
    (runRecv e).timings.ttfb = some (msSince e.start t) := by
  unfold runRecv
  rw [h]
  exact recvFold_ttfb_first t c l (recvInit e) rfl rfl

theorem msSince_mono (s t₁ t₂ : Nat) (h : t₁ ≤ t₂) : msSince s t₁ ≤ msSince s t₂ :=
  Nat.div_le_div_right (Nat.sub_le_sub_right h s)

theorem runRecv_start (e : Exchange) : (runRecv e).timings.start = e.start := by
  unfold runRecv
  rw [recvFold_start]
  rfl

theorem runRecv_tls (e : Exchange) :
    (runRecv e).timings.tlsHandshake
      = (if e.isHttps then e.secureAt.map (msSince e.start) else none) := by
  unfold runRecv
  rw [recvFold_tls]
  rfl

theorem runRecv_total (e : Exchange) : (runRecv e).timings.total = none := by
  unfold runRecv
  rw [recvFold_total]
  rfl

theorem makeRequest_start (e : Exchange) :
    (makeRequest e).timings.start = e.start := by
  unfold makeRequest
  dsimp only
  split
  · exact runRecv_start e
  · split
    · exact runRecv_start e
    · split <;> exact runRecv_start e

theorem makeRequest_tls (e : Exchange) :
    (makeRequest e).timings.tlsHandshake
      = (if e.isHttps then e.secureAt.map (msSince e.start) else none) := by
  unfold makeRequest
  dsimp only
  split
  · exact runRecv_tls e
  · split
    · exact runRecv_tls e
    · split <;> exact runRecv_tls e

theorem makeRequest_ttfb (e : Exchange) :
    (makeRequest e).timings.ttfb = (runRecv e).timings.ttfb := by
  unfold makeRequest
  dsimp only
  split
  · rfl
  · split
    · rfl
    · split <;> rfl

theorem makeRequest_total_cases (e : Exchange) :
    (makeRequest e).timings.total = none
    ∨ ∃ te, e.endAt = some te ∧ (runRecv e).aborted = false
        ∧ (makeRequest e).timings.total = some (msSince e.start te) := by
  unfold makeRequest
  dsimp only
  split
  · exact Or.inl (runRecv_total e)
  · rename_i hab
    have hab' : (runRecv e).aborted = false := by
      revert hab
      cases (runRecv e).aborted <;> simp
    split
    · exact Or.inl (runRecv_total e)
    · rename_i te hend
      split <;> exact Or.inr ⟨te, hend, hab', rfl⟩

/-! ## C3 — response size ceiling -/

/-- C3: at every instant of every exchange (after any number `n` of
delivered chunks) the accumulated body buffer stays within the 50 MiB
ceiling; the loop aborts exactly when some chunk would push the running
total past the ceiling (incremental enforcement); and an aborted exchange
rejects with `Network error: Response too large` with `timings.total`
never set. -/
theorem response_size_ceiling (e : Exchange) :
    (∀ n, sumLen (recvAt e n).chunks ≤ maxResponseSize)
    ∧ (runRecv e).aborted = crossesCeiling 0 (e.chunks.map (fun p => p.2.length))
    ∧ ((runRecv e).aborted = true →
        (makeRequest e).outcome = some (.error (.networkError "Response too large"))
        ∧ (makeRequest e).timings.total = none) := by
  refine ⟨?_, ?_, ?_⟩
  · intro n
    exact recvFold_size_invariant (e.chunks.take n) (recvInit e)
      ⟨by simp [recvInit, sumLen], fun _ => by simp [recvInit, sumLen]⟩
  · have h := recvFold_crosses e.chunks (recvInit e) rfl
    simpa [runRecv, recvInit] using h
  · intro h
    constructor
    · simp [makeRequest, h]
    · have := runRecv_total e
      simp [makeRequest, h]
      simpa [runRecv] using this

/-- A chunk one byte past the ceiling. -/
def bigChunk : List Char := List.replicate (maxResponseSize + 1) 'a'

/-- An exchange delivering a single oversize chunk. -/
def bigExchange : Exchange :=
  { isHttps := false, start := 0, secureAt := none, chunks := [(5, bigChunk)],
    endAt := some 10, statusCode := 200, statusMessage := "OK", headers := [] }

/-- Witness for C3: the oversize exchange aborts with the Network error
and no total timing. -/
theorem response_size_ceiling_witness :
    (runRecv bigExchange).aborted = true
    ∧ (makeRequest bigExchange).outcome
        = some (.error (.networkError "Response too large"))
    ∧ (makeRequest bigExchange).timings.total = none := by
  have hlen : bigChunk.length = maxResponseSize + 1 := by
    simp [bigChunk]
  have hmap : bigExchange.chunks.map (fun p => p.2.length) = [bigChunk.length] := by
    simp [bigExchange]
  have hcross : crossesCeiling 0 (bigExchange.chunks.map (fun p => p.2.length)) = true := by
    rw [hmap, hlen]
    unfold crossesCeiling
    rw [if_pos (by omega)]
  have hab : (runRecv bigExchange).aborted = true :=
    ((response_size_ceiling bigExchange).2.1).trans hcross
  exact ⟨hab, ((response_size_ceiling bigExchange).2.2 hab).1,
    ((response_size_ceiling bigExchange).2.2 hab).2⟩

/-! ## C4 — non-2xx statuses reject with an HTTP error -/

/-- C4 as stated is false on empty-body error responses: a completed 404
exchange with no body chunks produces the exact `HTTP 404: Not Found`
error and a total timing, but `ttfb` is never recorded (there was no first
byte of body). -/
def notFoundExchange : Exchange :=
  { isHttps := false, start := 1000, secureAt := none, chunks := [],
    endAt := some 5000000, statusCode := 404, statusMessage := "Not Found", headers := [] }

theorem http_404_without_ttfb :
    (makeRequest notFoundExchange).outcome
      = some (.error (.httpError "HTTP 404: Not Found" (some 404)))
    ∧ (makeRequest notFoundExchange).timings.total = some 4
    ∧ (makeRequest notFoundExchange).timings.ttfb = none :=
  ⟨rfl, rfl, rfl⟩

/-- C4 amended: every completed (non-aborted) exchange whose status lies
outside [200, 300) rejects with an `HttpClientError` whose message is
exactly `HTTP <code>: <reason>` and which carries the numeric code;
`timings.total` is always recorded, and `timings.ttfb` is recorded exactly
when at least one body chunk arrived. -/
theorem http_error_on_bad_status (e : Exchange) (hwf : e.WF) (te : Nat)
    (hend : e.endAt = some te) (hab : (runRecv e).aborted = false)
    (hbad : e.statusCode < 200 ∨ 300 ≤ e.statusCode) :
    (makeRequest e).outcome = some (.error (.httpError
        ("HTTP " ++ toString e.statusCode ++ ": " ++ e.statusMessage)
        (some e.statusCode)))
    ∧ (makeRequest e).timings.total = some (msSince e.start te)
    ∧ (e.chunks = [] → (makeRequest e).timings.ttfb = none)
    ∧ (∀ t c l, e.chunks = (t, c) :: l →
        (makeRequest e).timings.ttfb = some (msSince e.start t)) := by
  have hne : e.statusCode ≠ 0 := by
    have := hwf.status_real
    omega
  have hcond : e.statusCode ≠ 0 ∧ (e.statusCode < 200 ∨ 300 ≤ e.statusCode) :=
    ⟨hne, hbad⟩
  refine ⟨?_, ?_, ?_, ?_⟩
  · simp [makeRequest, hab, hend, if_pos hcond]
  · simp [makeRequest, hab, hend, if_pos hcond]
  · intro h
    rw [makeRequest_ttfb]
    exact runRecv_ttfb_nil e h
  · intro t c l h
    rw [makeRequest_ttfb]
    exact runRecv_ttfb_cons e t c l h

/-- A completed 404 exchange with one body chunk. -/
def notFoundBodyExchange : Exchange :=
  { isHttps := false, start := 1000, secureAt := none,
    chunks := [(2001000, ['e', 'r', 'r'])], endAt := some 5001000,
    statusCode := 404, statusMessage := "Not Found", headers := [] }

/-- Witness for the amended C4 at a concrete 404 exchange. -/
theorem http_error_on_bad_status_witness :
    (makeRequest notFoundBodyExchange).outcome
      = some (.error (.httpError "HTTP 404: Not Found" (some 404)))
    ∧ (makeRequest notFoundBodyExchange).timings.total = some 5
    ∧ (makeRequest notFoundBodyExchange).timings.ttfb = some 2 := by
  have hwf : notFoundBodyExchange.WF := by
    constructor <;> simp [notFoundBodyExchange]
  have h := http_error_on_bad_status notFoundBodyExchange hwf 5001000 rfl rfl
    (Or.inr (by decide))
  exact ⟨h.1, h.2.1, h.2.2.2 2001000 ['e', 'r', 'r'] [] rfl⟩

/-! ## C8 — timing ladder and write-once discipline -/

/-- The exchange used to refute the literal field-value ladder: realistic
clock values make `start` (an absolute nanosecond timestamp) enormously
larger than the millisecond durations stored in the later fields. -/
def tlsExchange : Exchange :=
  { isHttps := true, start := 1000000000000, secureAt := some 1000005000000,
    chunks := [(1000007000000, ['h', 'i'])], endAt := some 1000009000000,
    statusCode := 200, statusMessage := "OK", headers := [] }

/-- C8 as stated is false: on a concrete HTTPS exchange the recorded
fields are `start = 10^12` (nanosecond timestamp) and `tlsHandshake = 5`,
`ttfb = 7`, `total = 9` (millisecond durations), so the chain
`start ≤ tlsHandshake ≤ ttfb ≤ total` over the stored field values fails
at its first link. -/
theorem timing_ladder_claim_false :
    timingsChain (makeRequest tlsExchange).timings = [1000000000000, 5, 7, 9]
    ∧ chainLe (timingsChain (makeRequest tlsExchange).timings) = false :=
  ⟨rfl, rfl⟩

/-- C8 amended: the duration fields do rise in ladder order — whenever two
of `tlsHandshake ≤ ttfb ≤ total` are set, they compare as claimed — and no
field is overwritten after being set: a `ttfb` observed after `n` chunks
persists to the end of the loop, `tlsHandshake` is only ever the value
stamped before the first chunk, and `total` stays unset throughout the
loop (it is stamped once, at `end`).  `start` itself is the raw clock
stamp of dispatch, not a duration, which is what breaks the literal
claim. -/
theorem timing_ladder_amended (e : Exchange) (hwf : e.WF) :
    ((makeRequest e).timings.start = e.start)
    ∧ (∀ a b, (makeRequest e).timings.tlsHandshake = some a →
        (makeRequest e).timings.ttfb = some b → a ≤ b)
    ∧ (∀ b c, (makeRequest e).timings.ttfb = some b →
        (makeRequest e).timings.total = some c → b ≤ c)
    ∧ (∀ a c, (makeRequest e).timings.tlsHandshake = some a →
        (makeRequest e).timings.total = some c → a ≤ c)
    ∧ (∀ n x, (recvAt e n).timings.ttfb = some x →
        (runRecv e).timings.ttfb = some x)
    ∧ (∀ n, (recvAt e n).timings.tlsHandshake = (recvInit e).timings.tlsHandshake)
    ∧ (∀ n, (recvAt e n).timings.total = none) := by
  have htls : ∀ a, (makeRequest e).timings.tlsHandshake = some a →
      e.isHttps = true ∧ ∃ ts, e.secureAt = some ts ∧ a = msSince e.start ts := by
    intro a ha
    rw [makeRequest_tls] at ha
    by_cases hh : e.isHttps
    · rw [if_pos hh] at ha
      cases hs : e.secureAt with
      | none => rw [hs] at ha; exact absurd ha (by simp)
      | some ts =>
          rw [hs] at ha
          simp at ha
          exact ⟨hh, ts, rfl, ha.symm⟩
    · rw [if_neg hh] at ha
      exact absurd ha (by simp)
  have httfb : ∀ b, (makeRequest e).timings.ttfb = some b →
      ∃ t c l, e.chunks = (t, c) :: l ∧ b = msSince e.start t := by
    intro b hb
    rw [makeRequest_ttfb] at hb
    cases hc : e.chunks with
    | nil => rw [runRecv_ttfb_nil e hc] at hb; exact absurd hb (by simp)
    | cons p l =>
        obtain ⟨t, c⟩ := p
        have := runRecv_ttfb_cons e t c l hc
        rw [this] at hb
        exact ⟨t, c, l, rfl, (Option.some_inj.mp hb).symm⟩
  have htotal : ∀ c, (makeRequest e).timings.total = some c →
      ∃ te, e.endAt = some te ∧ c = msSince e.start te := by
    intro c hc
    rcases makeRequest_total_cases e with h | ⟨te, hend, _, htot⟩
    · rw [h] at hc; exact absurd hc (by simp)
    · rw [htot] at hc
      exact ⟨te, hend, (Option.some_inj.mp hc).symm⟩
  refine ⟨makeRequest_start e, ?_, ?_, ?_, ?_, ?_, ?_⟩
  · intro a b ha hb
    obtain ⟨hh, ts, hs, hav⟩ := htls a ha
    obtain ⟨t, c, l, hc, hbv⟩ := httfb b hb
    have hle : ts ≤ t := hwf.secure_le_chunks ts hs (t, c) (by rw [hc]; exact List.mem_cons_self _ _)
    rw [hav, hbv]
    exact msSince_mono _ _ _ hle
  · intro b c hb hc
    obtain ⟨t, ch, l, hch, hbv⟩ := httfb b hb
    obtain ⟨te, hend, hcv⟩ := htotal c hc
    have hle : t ≤ te := hwf.chunks_le_end te hend (t, ch)
      (by rw [hch]; exact List.mem_cons_self _ _)
    rw [hbv, hcv]
    exact msSince_mono _ _ _ hle
  · intro a c ha hc
    obtain ⟨hh, ts, hs, hav⟩ := htls a ha
    obtain ⟨te, hend, hcv⟩ := htotal c hc
    have hle : ts ≤ te := hwf.secure_le_end ts hs te hend
    rw [hav, hcv]
    exact msSince_mono _ _ _ hle
  · intro n x hx
    have hsplit : runRecv e = (e.chunks.drop n).foldl recvStep (recvAt e n) := by
      unfold runRecv recvAt
      rw [← List.foldl_append, List.take_append_drop]
    rw [hsplit]
    exact recvFold_ttfb_some _ _ _ hx
  · intro n
    unfold recvAt
    rw [recvFold_tls]
  · intro n
    unfold recvAt
    rw [recvFold_total]
    rfl

/-- Witness for the amended C8 on the concrete HTTPS exchange: the ladder
components evaluate and the inequality `tlsHandshake ≤ ttfb` is obtained
from the theorem. -/
theorem timing_ladder_amended_witness :
    (makeRequest tlsExchange).timings.tlsHandshake = some 5
    ∧ (makeRequest tlsExchange).timings.ttfb = some 7
    ∧ 5 ≤ 7 := by
  have hwf : tlsExchange.WF := by
    constructor <;> simp [tlsExchange]
  exact ⟨rfl, rfl, (timing_ladder_amended tlsExchange hwf).2.1 5 7 rfl rfl⟩

/-! ## Header-map lemmas -/

theorem objMerge_singleton (a : List (String × String)) (k v : String) :
    objMerge a [(k, v)] = objSet a k v := rfl

theorem find?_mapSet_self (o : List (String × String)) (k v : String)
    (h : o.any (fun p => p.1 = k) = true) :
    (o.map (fun p => if p.1 = k then (k, v) else p)).find? (fun p => p.1 = k)
      = some (k, v) := by
  induction o with
  | nil => simp at h
  | cons p o ih =>
      by_cases hp : p.1 = k
      · simp [hp]
      · have h' : o.any (fun p => p.1 = k) = true := by
          simpa [hp] using h
        simp [hp, ih h']

theorem find?_mapSet_other (o : List (String × String)) (k v k' : String)
    (hk : k' ≠ k) :
    (o.map (fun p => if p.1 = k then (k, v) else p)).find? (fun p => p.1 = k')
      = o.find? (fun p => p.1 = k') := by
  induction o with
  | nil => rfl
  | cons p o ih =>
      rw [List.map_cons]
      by_cases hp : p.1 = k
      · rw [if_pos hp]
        have h1 : ¬ (k = k') := fun hkk => hk hkk.symm
        have h2 : ¬ (p.1 = k') := by rw [hp]; exact h1
        rw [List.find?_cons_of_neg _ (by simpa using h1),
          List.find?_cons_of_neg _ (by simpa using h2), ih]
      · rw [if_neg hp]
        by_cases hq : p.1 = k'
        · rw [List.find?_cons_of_pos _ (by simpa using hq),
            List.find?_cons_of_pos _ (by simpa using hq)]
        · rw [List.find?_cons_of_neg _ (by simpa using hq),
            List.find?_cons_of_neg _ (by simpa using hq), ih]

theorem objGet_objSet_self (o : List (String × String)) (k v : String) :
    objGet (objSet o k v) k = some v := by
  unfold objSet objGet
  by_cases h : o.any (fun p => p.1 = k) = true
  · rw [if_pos h, find?_mapSet_self o k v h]
    rfl
  · rw [if_neg h, List.find?_append]
    have hnone : o.find? (fun p => p.1 = k) = none := by
      rw [List.find?_eq_none]
      intro x hx hpx
      exact h (List.any_eq_true.mpr ⟨x, hx, hpx⟩)
    rw [hnone]
    simp

theorem objGet_objSet_other (o : List (String × String)) (k v k' : String)
    (hk : k' ≠ k) : objGet (objSet o k v) k' = objGet o k' := by
  unfold objSet objGet
  by_cases h : o.any (fun p => p.1 = k) = true
  · rw [if_pos h, find?_mapSet_other o k v k' hk]
  · rw [if_neg h, List.find?_append]
    have hkk : ¬ (k = k') := fun hkk => hk hkk.symm
    have hone : ([(k, v)].find? (fun p => p.1 = k')) = none := by
      simp [hkk]
    rw [hone]
    simp

/-! ## C9 — encoder Content-Type wins -/

/-- The `Content-Type` value the body encoder emits for each encoding
mode. -/
def emittedCT (ct : String) (boundary : String) : String :=
  if ct = "form" then "application/x-www-form-urlencoded"
  else if ct = "multipart" then "multipart/form-data; boundary=" ++ boundary
  else if ct = "text" then "text/plain"
  else if ct = "binary" then "application/octet-stream"
  else "application/json"

theorem serializeData_headers (d : JSData) (ct boundary : String) (s : Serialized)
    (hd : dataPresent d = true) (h : serializeData d ct boundary = .ok s) :
    s.headers = [("Content-Type", emittedCT ct boundary)] := by
  unfold serializeData at h
  rw [if_neg (by simp [hd])] at h
  unfold emittedCT
  by_cases h1 : ct = "form"
  · rw [if_pos h1] at h
    rw [if_pos h1]
    cases h
    rfl
  · rw [if_neg h1] at h
    rw [if_neg h1]
    by_cases h2 : ct = "multipart"
    · rw [if_pos h2] at h
      rw [if_pos h2]
      cases hm : serializeMultipartData boundary d with
      | ok body => rw [hm] at h; cases h; rfl
      | error e => rw [hm] at h; exact absurd h (by simp)
    · rw [if_neg h2] at h
      rw [if_neg h2]
      by_cases h3 : ct = "text"
      · rw [if_pos h3] at h
        rw [if_pos h3]
        cases h
        rfl
      · rw [if_neg h3] at h
        rw [if_neg h3]
        by_cases h4 : ct = "binary"
        · rw [if_pos h4] at h
          rw [if_pos h4]
          cases d with
          | buffer b => cases h; rfl
          | jnull => simp [dataPresent] at hd
          | jsUndefined => simp [dataPresent] at hd
          | str s0 => exact absurd h (by simp)
          | num n => exact absurd h (by simp)
          | bool b => exact absurd h (by simp)
          | arr l => exact absurd h (by simp)
          | obj f => exact absurd h (by simp)
          | circular => exact absurd h (by simp)
        · rw [if_neg h4] at h
          rw [if_neg h4]
          cases hj : jsonStringify d with
          | some str => rw [hj] at h; cases h; rfl
          | none => rw [hj] at h; exact absurd h (by simp)

/-- C9: for every call that carries a non-null payload, the Content-Type
header of the dispatched request is the one the body encoder produced for
the effective encoding mode — overriding any Content-Type from the default
configuration or the per-call overrides — while every other merged header
entry passes through unchanged. -/
theorem content_type_override (client : ClientModel) (cfg : RequestConfig)
    (ep : String) (d : JSData) (boundary : String) (p : PreparedRequest)
    (hd : dataPresent d = true)
    (hp : prepareRequest client (.str ep) cfg (some d) boundary = .ok p) :
    objGet p.headers "Content-Type"
      = some (emittedCT
          (effContentType (mergeConfig client.defaultConfig cfg) client.defaultConfig)
          boundary)
    ∧ ∀ k, k ≠ "Content-Type" →
        objGet p.headers k = objGet (mergeConfig client.defaultConfig cfg).headers k := by
  simp only [prepareRequest, Option.getD_some] at hp
  by_cases hep : ep = ""
  · rw [if_pos hep] at hp
    exact absurd hp (by simp)
  · rw [if_neg hep] at hp
    split at hp
    · exact absurd hp (by simp)
    · rename_i hcheck
      cases hser : serializeData d
          (effContentType (mergeConfig client.defaultConfig cfg) client.defaultConfig)
          boundary with
      | error e =>
          rw [hser] at hp
          exact absurd hp (by simp)
      | ok ser =>
          rw [hser] at hp
          have hph : p.headers = objMerge (mergeConfig client.defaultConfig cfg).headers
              ser.headers := by
            cases hp
            rfl
          have hsh := serializeData_headers d _ boundary ser hd hser
          rw [hph, hsh, objMerge_singleton]
          exact ⟨objGet_objSet_self _ _ _,
            fun k hk => objGet_objSet_other _ _ _ _ hk⟩

/-- A demonstration client configuration (the constructor defaults). -/
def demoDefaults : DefaultConfig :=
  { headers := [("Content-Type", "application/json"), ("User-Agent", "Node.js HTTP Client")]
    timeout := 10000, rawResponse := false, contentType := "json" }

/-- A demonstration client. -/
def demoClient : ClientModel :=
  { baseURL := "https://api.example.com", defaultConfig := demoDefaults }

/-- A POST call config that tries to force its own Content-Type. -/
def demoPostCfg : RequestConfig :=
  { method := some "POST", headers := some [("Content-Type", "text/html"), ("X-Custom", "1")],
    timeout := none, contentType := some "text", rawResponse := none }

/-- What `_request` assembles for the demonstration call. -/
def demoPrepared : PreparedRequest :=
  { url := "https://api.example.com/x"
    method := some "POST"
    headers := [("Content-Type", "text/plain"), ("User-Agent", "Node.js HTTP Client"),
                ("X-Custom", "1")]
    body := some (.str "hi")
    timeout := 10000
    rawResponse := false }

/-- Witness for C9: the text encoder's `text/plain` overrides both the
default `application/json` and the per-call `text/html`, while the custom
header passes through. -/
theorem content_type_override_witness :
    objGet demoPrepared.headers "Content-Type" = some "text/plain"
    ∧ objGet demoPrepared.headers "X-Custom" = some "1" := by
  have h := content_type_override demoClient demoPostCfg "/x" (.str "hi") "B"
    demoPrepared rfl rfl
  exact ⟨h.1, (h.2 "X-Custom" (by decide)).trans rfl⟩

/-! ## C1 — input validation happens before any network I/O -/

theorem serializeData_json_failure (d : JSData) (ct boundary : String)
    (hd : dataPresent d = true)
    (h1 : ct ≠ "form") (h2 : ct ≠ "multipart") (h3 : ct ≠ "text") (h4 : ct ≠ "binary")
    (hser : jsonStringify d = none) :
    serializeData d ct boundary
      = .error (.typeError "Converting circular structure to JSON") := by
  unfold serializeData
  rw [if_neg (by simp [hd]), if_neg h1, if_neg h2, if_neg h3, if_neg h4, hser]

theorem serializeData_binary_nonbuffer (d : JSData) (boundary : String)
    (hd : dataPresent d = true) (hbuf : d.isBuffer = false) :
    serializeData d "binary" boundary
      = .error (.networkError "Binary content type requires Buffer data") := by
  unfold serializeData
  rw [if_neg (by simp [hd]), if_neg (by decide), if_neg (by decide),
    if_neg (by decide), if_pos rfl]
  cases d with
  | buffer b => simp [JSData.isBuffer] at hbuf
  | jnull => rfl
  | jsUndefined => rfl
  | str s => rfl
  | num n => rfl
  | bool b => rfl
  | arr l => rfl
  | obj f => rfl
  | circular => rfl

theorem requestModel_of_prepare_error (client : ClientModel) (endpoint : JSEndpoint)
    (cfg : RequestConfig) (data : Option JSData) (boundary : String)
    (server : PreparedRequest → Exchange) (e : JSError)
    (h : prepareRequest client endpoint cfg data boundary = .error e) :
    requestModel client endpoint cfg data boundary server = (some (.error e), false) := by
  unfold requestModel
  rw [h]

theorem prepareRequest_invalid_endpoint (client : ClientModel) (cfg : RequestConfig)
    (data : Option JSData) (boundary : String) (endpoint : JSEndpoint)
    (h : endpoint = JSEndpoint.nullish ∨ endpoint = JSEndpoint.nonString
      ∨ endpoint = JSEndpoint.str "") :
    prepareRequest client endpoint cfg data boundary
      = .error (.networkError "Invalid endpoint: must be a non-empty string") := by
  rcases h with h | h | h <;> subst h <;> rfl

theorem prepareRequest_json_precheck (client : ClientModel) (cfg : RequestConfig)
    (d : JSData) (boundary : String) (ep : String)
    (hep : ep ≠ "") (hd : dataPresent d = true)
    (hm : cfg.method = some "POST" ∨ cfg.method = some "PUT")
    (hobj : d.typeofObject = true) (hbuf : d.isBuffer = false)
    (hct : cfg.contentType = some "json") (hser : jsonStringify d = none) :
    prepareRequest client (.str ep) cfg (some d) boundary
      = .error (.networkError "Invalid request data: cannot be serialized to JSON") := by
  simp only [prepareRequest, Option.getD_some]
  have hc : (dataPresent d
      && (decide (cfg.method = some "POST") || decide (cfg.method = some "PUT"))
      && d.typeofObject && !d.isBuffer && decide (cfg.contentType = some "json")
      && (jsonStringify d).isNone) = true := by
    rcases hm with h | h <;> simp [hd, hobj, hbuf, hct, hser, h]
  rw [if_neg hep, if_pos hc]

theorem prepareRequest_default_json_circular (client : ClientModel)
    (cfg : RequestConfig) (d : JSData) (boundary : String) (ep : String)
    (hep : ep ≠ "") (hd : dataPresent d = true)
    (hctne : cfg.contentType ≠ some "json")
    (h1 : effContentType (mergeConfig client.defaultConfig cfg) client.defaultConfig ≠ "form")
    (h2 : effContentType (mergeConfig client.defaultConfig cfg) client.defaultConfig ≠ "multipart")
    (h3 : effContentType (mergeConfig client.defaultConfig cfg) client.defaultConfig ≠ "text")
    (h4 : effContentType (mergeConfig client.defaultConfig cfg) client.defaultConfig ≠ "binary")
    (hser : jsonStringify d = none) :
    prepareRequest client (.str ep) cfg (some d) boundary
      = .error (.typeError "Converting circular structure to JSON") := by
  simp only [prepareRequest, Option.getD_some]
  rw [if_neg hep, if_neg (by simp [hctne]),
    serializeData_json_failure d _ boundary hd h1 h2 h3 h4 hser]

theorem prepareRequest_binary_nonbuffer (client : ClientModel) (cfg : RequestConfig)
    (d : JSData) (boundary : String) (ep : String)
    (hep : ep ≠ "") (hd : dataPresent d = true) (hbuf : d.isBuffer = false)
    (hct : effContentType (mergeConfig client.defaultConfig cfg) client.defaultConfig
      = "binary") :
    prepareRequest client (.str ep) cfg (some d) boundary
      = .error (.networkError "Binary content type requires Buffer data") := by
  have hctne : cfg.contentType ≠ some "json" := by
    intro hc
    have : effContentType (mergeConfig client.defaultConfig cfg) client.defaultConfig
        = "json" := by
      simp [effContentType, mergeConfig, hc]
    rw [this] at hct
    exact absurd hct (by decide)
  simp only [prepareRequest, Option.getD_some]
  rw [if_neg hep, if_neg (by simp [hctne]), hct,
    serializeData_binary_nonbuffer d boundary hd hbuf]

/-- C1 as stated is false: the empty-endpoint failure (like all the
validation failures in `_request`) is raised as a `NetworkError`, not as a
Validation-typed error — the package's `ValidationError` class is never
thrown by the client. -/
def demoGetCfg : RequestConfig :=
  { method := some "GET", headers := none, timeout := none,
    contentType := none, rawResponse := none }

/-- A server oracle for demonstrations; irrelevant to pre-network
failures. -/
def trivialServer : PreparedRequest → Exchange :=
  fun _ => { isHttps := false, start := 0, secureAt := none, chunks := [],
             endAt := some 0, statusCode := 200, statusMessage := "OK", headers := [] }

theorem validation_error_type_claim_false :
    (requestModel demoClient (.str "") demoGetCfg none "B" trivialServer).1
      = some (.error (.networkError "Invalid endpoint: must be a non-empty string"))
    ∧ (JSError.networkError "Invalid endpoint: must be a non-empty string").isValidation
        = false
    ∧ (JSError.networkError "Invalid endpoint: must be a non-empty string").name
        = "NetworkError" :=
  ⟨rfl, rfl, rfl⟩

/-- C1 amended: every structurally invalid input fails before the
transport is ever invoked (second component `false` = zero bytes written),
but with a `NetworkError` — except a non-serializable payload whose json
mode comes from the defaults rather than an explicit per-call
`contentType`, where the underlying serialization `TypeError` escapes
unwrapped.  No Validation-typed error is ever produced. -/
theorem invalid_input_fails_before_network :
    (∀ (client : ClientModel) (cfg : RequestConfig) (data : Option JSData)
        (boundary : String) (server : PreparedRequest → Exchange) (endpoint : JSEndpoint),
        (endpoint = JSEndpoint.nullish ∨ endpoint = JSEndpoint.nonString
          ∨ endpoint = JSEndpoint.str "") →
        requestModel client endpoint cfg data boundary server
          = (some (.error (.networkError "Invalid endpoint: must be a non-empty string")),
             false))
    ∧ (∀ (client : ClientModel) (cfg : RequestConfig) (d : JSData)
        (boundary : String) (server : PreparedRequest → Exchange) (ep : String),
        ep ≠ "" → dataPresent d = true →
        (cfg.method = some "POST" ∨ cfg.method = some "PUT") →
        d.typeofObject = true → d.isBuffer = false →
        cfg.contentType = some "json" → jsonStringify d = none →
        requestModel client (.str ep) cfg (some d) boundary server
          = (some (.error (.networkError "Invalid request data: cannot be serialized to JSON")),
             false))
    ∧ (∀ (client : ClientModel) (cfg : RequestConfig) (d : JSData)
        (boundary : String) (server : PreparedRequest → Exchange) (ep : String),
        ep ≠ "" → dataPresent d = true →
        cfg.contentType ≠ some "json" →
        effContentType (mergeConfig client.defaultConfig cfg) client.defaultConfig ≠ "form" →
        effContentType (mergeConfig client.defaultConfig cfg) client.defaultConfig ≠ "multipart" →
        effContentType (mergeConfig client.defaultConfig cfg) client.defaultConfig ≠ "text" →
        effContentType (mergeConfig client.defaultConfig cfg) client.defaultConfig ≠ "binary" →
        jsonStringify d = none →
        requestModel client (.str ep) cfg (some d) boundary server
          = (some (.error (.typeError "Converting circular structure to JSON")), false))
    ∧ (∀ (client : ClientModel) (cfg : RequestConfig) (d : JSData)
        (boundary : String) (server : PreparedRequest → Exchange) (ep : String),
        ep ≠ "" → dataPresent d = true → d.isBuffer = false →
        effContentType (mergeConfig client.defaultConfig cfg) client.defaultConfig
          = "binary" →
        requestModel client (.str ep) cfg (some d) boundary server
          = (some (.error (.networkError "Binary content type requires Buffer data")),
             false)) := by
  refine ⟨?_, ?_, ?_, ?_⟩
  · intro client cfg data boundary server endpoint h
    exact requestModel_of_prepare_error _ _ _ _ _ _ _
      (prepareRequest_invalid_endpoint client cfg data boundary endpoint h)
  · intro client cfg d boundary server ep hep hd hm hobj hbuf hct hser
    exact requestModel_of_prepare_error _ _ _ _ _ _ _
      (prepareRequest_json_precheck client cfg d boundary ep hep hd hm hobj hbuf hct hser)
  · intro client cfg d boundary server ep hep hd hctne h1 h2 h3 h4 hser
    exact requestModel_of_prepare_error _ _ _ _ _ _ _
      (prepareRequest_default_json_circular client cfg d boundary ep hep hd hctne
        h1 h2 h3 h4 hser)
  · intro client cfg d boundary server ep hep hd hbuf hct
    exact requestModel_of_prepare_error _ _ _ _ _ _ _
      (prepareRequest_binary_nonbuffer client cfg d boundary ep hep hd hbuf hct)

/-- Witness for the amended C1: a circular payload posted with an explicit
json content type fails with the `NetworkError` before the transport is
invoked. -/
theorem invalid_input_fails_before_network_witness :
    requestModel demoClient (.str "/x")
      { method := some "POST", headers := none, timeout := none,
        contentType := some "json", rawResponse := none }
      (some .circular) "B" trivialServer
      = (some (.error (.networkError "Invalid request data: cannot be serialized to JSON")),
         false) :=
  invalid_input_fails_before_network.2.1 demoClient
    { method := some "POST", headers := none, timeout := none,
      contentType := some "json", rawResponse := none }
    .circular "B" trivialServer "/x" (by decide) rfl (Or.inl rfl) rfl rfl rfl rfl

end Flux
